import Mathlib

/-!
# Verification of the gpx-normalize resampler

Shallow embedding of `normalizeGPX` from `gpxutils.go`.  The program reads a
GPX file, takes the first segment of the first track, resamples it to exactly
`numTargetPoints = 1000` points evenly spaced along the planar path, copies
the header metadata (with `Creator` replaced by the fixed string
`"gpx-normalizer"`), and writes the result back out.

File I/O, XML parsing and serialization are external collaborators and are
not modelled; the embedding starts from the in-memory GPX structure.

The Go code calls two external library functions inside the resampling core:
`gpx.GPXPoint.Distance2D` (a planar 2D distance from the `gpxgo` library) and
`math.IsNaN`.  Both are treated as oracles: the embedding is parametrized by
a distance function `d` and a predicate `isNaN`, and the arithmetic is
carried out in an arbitrary `LinearOrderedField` (exact arithmetic standing
in for IEEE doubles; `ℚ` instantiations keep everything computable).  For the
equidistance claim the distance oracle is instantiated with the planar
Euclidean metric on `ℝ`, which is how the specification describes
`Distance2D`.
-/

/-- Mirror of `gpx.NullableFloat64` (a `Valid` flag plus a float value);
`Value()` returns the stored value regardless of validity. -/
structure NullableFloat64 (α : Type) where
  valid : Bool
  value : α
  deriving Repr, DecidableEq

/-- Mirror of `gpx.GPXPoint` restricted to the fields the program touches:
latitude, longitude, optional elevation, and a timestamp (carried through
uninterpolated; its actual type is irrelevant, `Int` stands in for it). -/
structure GPXPoint (α : Type) where
  latitude : α
  longitude : α
  elevation : NullableFloat64 α
  timestamp : Int
  deriving Repr, DecidableEq

instance {α : Type} [Zero α] : Inhabited (GPXPoint α) :=
  ⟨{ latitude := 0, longitude := 0, elevation := ⟨false, 0⟩, timestamp := 0 }⟩

/-- Mirror of `gpx.GPXTrackSegment` (only the point list matters). -/
structure GPXTrackSegment (α : Type) where
  points : List (GPXPoint α)
  deriving Repr, DecidableEq

/-- Mirror of `gpx.GPXTrack` (only the segment list matters). -/
structure GPXTrack (α : Type) where
  segments : List (GPXTrackSegment α)
  deriving Repr, DecidableEq

/-- Mirror of the `gpx.GPX` container: the header fields `normalizeGPX`
copies, plus the track list.  Field types that the program never inspects
(`Time`, `Bounds`, `Extensions`, `Link`, ...) are modelled as `String` /
`Option` stand-ins; only their identity matters. -/
structure GPX (α : Type) where
  creator : String
  version : String
  name : String
  description : String
  authorName : String
  copyrightAuthor : String
  copyrightYear : String
  copyrightLicense : String
  link : String
  linkText : String
  time : Option Int
  keywords : String
  bounds : Option (α × α × α × α)
  extensions : String
  tracks : List (GPXTrack α)
  deriving Repr, DecidableEq

/-- `const numTargetPoints = 1000` from `gpxutils.go`. -/
def numTargetPoints : Nat := 1000

variable {α : Type} [LinearOrderedField α]

/-- `sourcePoints[originalPointIndex].Distance2D(&sourcePoints[originalPointIndex+1])`:
the distance between consecutive source points `idx` and `idx+1`, with the
library distance function `d` as an oracle.  Out-of-range indices read the
default point; the bounds claims show they never occur. -/
def segDist (d : GPXPoint α → GPXPoint α → α) (pts : List (GPXPoint α))
    (idx : Nat) : α :=
  d (pts.getD idx default) (pts.getD (idx + 1) default)

/-- Mirror of the library `Length2D`: sum of `Distance2D` over consecutive
point pairs (`totalDistance := segment.Length2D()`). -/
def length2D (d : GPXPoint α → GPXPoint α → α) : List (GPXPoint α) → α
  | p :: q :: rest => d p q + length2D d (q :: rest)
  | _ => 0

/-- Cumulative distance over the first `k` segments of the polyline
(`cumulativeDistance` is always of this shape, see `advance_cum`). -/
def cumDistTo (d : GPXPoint α → GPXPoint α → α) (pts : List (GPXPoint α)) :
    Nat → α
  | 0 => 0
  | k + 1 => cumDistTo d pts k + segDist d pts k

/-- The inner `for` loop advancing `originalPointIndex`:

```
for originalPointIndex < len(sourcePoints)-2 &&
    cumulativeDistance+dist(idx, idx+1) < targetDistForCurrentPoint {
  cumulativeDistance += dist(idx, idx+1)
  originalPointIndex++
}
```

The state is `(cumulativeDistance, originalPointIndex)`.  `fuel` makes the
recursion structural; it is always called with `fuel = pts.length`, which
exceeds the number of possible iterations (the index strictly increases and
stays below `pts.length - 2`), so the loop always stops because the guard
fails, never because fuel runs out (`advance_guard_false`). -/
def advance (d : GPXPoint α → GPXPoint α → α) (pts : List (GPXPoint α))
    (target : α) : Nat → α × Nat → α × Nat
  | 0, s => s
  | fuel + 1, (cum, idx) =>
    if idx < pts.length - 2 ∧ cum + segDist d pts idx < target then
      advance d pts target fuel (cum + segDist d pts idx, idx + 1)
    else
      (cum, idx)

/-- `intervalDistance := totalDistance / float64(numTargetPoints-1)`. -/
def intervalOf (d : GPXPoint α → GPXPoint α → α)
    (pts : List (GPXPoint α)) : α :=
  length2D d pts / ((numTargetPoints - 1 : Nat) : α)

/-- The clamped interpolation ratio:

```
ratio := 0.0
if distP1P2 > 0 { ratio = (targetDistForCurrentPoint - distToP1) / distP1P2 }
if ratio < 0 { ratio = 0 }
if ratio > 1 { ratio = 1 }
``` -/
def ratioOf (d : GPXPoint α → GPXPoint α → α) (pts : List (GPXPoint α))
    (target cum : α) (idx : Nat) : α :=
  let distP1P2 := segDist d pts idx
  let r0 : α := if 0 < distP1P2 then (target - cum) / distP1P2 else 0
  let r1 : α := if r0 < 0 then 0 else r0
  if 1 < r1 then 1 else r1

/-- Body of the interior (`else`) branch of the output loop, after the cursor
has been advanced: builds the interpolated point from `p1 = pts[idx]`,
`p2 = pts[idx+1]`, the clamped ratio, the elevation policy, and the NaN
fallback to `p1`'s raw position. -/
def interpPoint (d : GPXPoint α → GPXPoint α → α) (isNaN : α → Bool)
    (pts : List (GPXPoint α)) (target cum : α) (idx : Nat) : GPXPoint α :=
  let p1 := pts.getD idx default
  let p2 := pts.getD (idx + 1) default
  let ratio := ratioOf d pts target cum idx
  let newLat := p1.latitude + ratio * (p2.latitude - p1.latitude)
  let newLon := p1.longitude + ratio * (p2.longitude - p1.longitude)
  let p1EleValid := p1.elevation.valid
  let p2EleValid := p2.elevation.valid
  let newEle : α :=
    if p1EleValid && p2EleValid then
      p1.elevation.value + ratio * (p2.elevation.value - p1.elevation.value)
    else if p1EleValid then p1.elevation.value
    else if p2EleValid then p2.elevation.value
    else 0
  let elevationInterpolated : Bool := p1EleValid || p2EleValid
  let lat := if isNaN newLat || isNaN newLon then p1.latitude else newLat
  let lon := if isNaN newLat || isNaN newLon then p1.longitude else newLon
  { latitude := lat
    longitude := lon
    elevation :=
      if elevationInterpolated then ⟨true, newEle⟩ else ⟨false, 0⟩
    timestamp := p1.timestamp }

/-- One iteration of the output loop at index `i` with loop state `s`:
returns the appended point and the state handed to the next iteration.
`i = 0` and `i = numTargetPoints - 1` copy the endpoints verbatim and do not
touch the cursor state; interior indices advance the cursor and
interpolate. -/
def stepResample (d : GPXPoint α → GPXPoint α → α) (isNaN : α → Bool)
    (pts : List (GPXPoint α)) (interval : α) (i : Nat) (s : α × Nat) :
    GPXPoint α × (α × Nat) :=
  if i = 0 then
    (pts.getD 0 default, s)
  else if i = numTargetPoints - 1 then
    (pts.getD (pts.length - 1) default, s)
  else
    let target := (i : α) * interval
    let s' := advance d pts target pts.length s
    (interpPoint d isNaN pts target s'.1 s'.2, s')

/-- The output loop `for i := 0; i < numTargetPoints; i++`, threading the
cursor state; `k` counts the remaining iterations (`k = numTargetPoints - i`
at entry). -/
def resampleFrom (d : GPXPoint α → GPXPoint α → α) (isNaN : α → Bool)
    (pts : List (GPXPoint α)) (interval : α) :
    Nat → Nat → α × Nat → List (GPXPoint α)
  | 0, _, _ => []
  | k + 1, i, s =>
    let step := stepResample d isNaN pts interval i s
    step.1 :: resampleFrom d isNaN pts interval k (i + 1) step.2

/-- The post-loop safeguard:

```
if len(*newSegmentPoints) < numTargetPoints && len(sourcePoints) > 0 {
  lastPt := (*newSegmentPoints)[len(*newSegmentPoints)-1]
  for len(*newSegmentPoints) < numTargetPoints { append lastPt }
} else if len(*newSegmentPoints) > numTargetPoints { truncate }
``` -/
def ensureCount (pts raw : List (GPXPoint α)) : List (GPXPoint α) :=
  if raw.length < numTargetPoints ∧ 0 < pts.length then
    raw ++ List.replicate (numTargetPoints - raw.length)
      (raw.getD (raw.length - 1) default)
  else if numTargetPoints < raw.length then
    raw.take numTargetPoints
  else
    raw

/-- The resampling core of `normalizeGPX` (everything between the
`len(sourcePoints) < 2` check and the XML serialization): the
`totalDistance == 0` branch replicating the first point, the general
interpolation loop, and the padding/truncation safeguard. -/
def resample (d : GPXPoint α → GPXPoint α → α) (isNaN : α → Bool)
    (pts : List (GPXPoint α)) : List (GPXPoint α) :=
  let totalDistance := length2D d pts
  let raw : List (GPXPoint α) :=
    if totalDistance = 0 then
      if 0 < pts.length then
        List.replicate numTargetPoints (pts.getD 0 default)
      else
        []
    else
      resampleFrom d isNaN pts (intervalOf d pts) numTargetPoints 0 (0, 0)
  ensureCount pts raw

/-- The error cases `normalizeGPX` can report once parsing has succeeded
(file/parse errors belong to the excluded I/O layer). -/
inductive GpxError : Type where
  | noTracks : GpxError
  | noSegments : GpxError
  | insufficientPoints : Nat → GpxError
  deriving Repr, DecidableEq

/-- `normalizeGPX` from the in-memory GPX structure onward: select the first
segment of the first track, reject paths with fewer than 2 points, build the
output container with `Creator = "gpx-normalizer"` and the other header
fields copied, and fill its single track/segment with the resampled
points. -/
def normalizeGPX (d : GPXPoint α → GPXPoint α → α) (isNaN : α → Bool)
    (g : GPX α) : Except GpxError (GPX α) :=
  match g.tracks with
  | [] => .error .noTracks
  | track :: _ =>
    match track.segments with
    | [] => .error .noSegments
    | seg :: _ =>
      let sourcePoints := seg.points
      if sourcePoints.length < 2 then
        .error (.insufficientPoints sourcePoints.length)
      else
        .ok
          { creator := "gpx-normalizer"
            version := g.version
            name := g.name
            description := g.description
            authorName := g.authorName
            copyrightAuthor := g.copyrightAuthor
            copyrightYear := g.copyrightYear
            copyrightLicense := g.copyrightLicense
            link := g.link
            linkText := g.linkText
            time := g.time
            keywords := g.keywords
            bounds := g.bounds
            extensions := g.extensions
            tracks := [⟨[⟨resample d isNaN sourcePoints⟩]⟩] }

/-- The cursor state an iteration passes on: endpoints leave it untouched,
interior indices replace it by the advanced state (this is
`(stepResample ...).2`, which does not depend on `isNaN`). -/
def nextState (d : GPXPoint α → GPXPoint α → α) (pts : List (GPXPoint α))
    (interval : α) (i : Nat) (s : α × Nat) : α × Nat :=
  if i = 0 then s
  else if i = numTargetPoints - 1 then s
  else advance d pts ((i : α) * interval) pts.length s

/-- The cursor state before output-loop iteration `i` (state `(0, 0)` before
iteration 0, then the state left behind by each iteration). -/
def stateAt (d : GPXPoint α → GPXPoint α → α) (pts : List (GPXPoint α))
    (interval : α) : Nat → α × Nat
  | 0 => (0, 0)
  | i + 1 => nextState d pts interval i (stateAt d pts interval i)

/-- The planar Euclidean distance the specification prescribes for
`Distance2D`: latitude/longitude treated as Cartesian coordinates. -/
noncomputable def euclidDist (p q : GPXPoint ℝ) : ℝ :=
  Real.sqrt ((p.latitude - q.latitude) ^ 2 + (p.longitude - q.longitude) ^ 2)

/-! ## Structural lemmas: output length -/

theorem resampleFrom_length (d : GPXPoint α → GPXPoint α → α)
    (isNaN : α → Bool) (pts : List (GPXPoint α)) (interval : α) :
    ∀ k i s, (resampleFrom d isNaN pts interval k i s).length = k := by
  intro k
  induction k with
  | zero => intro i s; rfl
  | succ k ih => intro i s; simp [resampleFrom, ih]

theorem ensureCount_length (pts raw : List (GPXPoint α))
    (h : 0 < pts.length) :
    (ensureCount pts raw).length = numTargetPoints := by
  unfold ensureCount
  by_cases h1 : raw.length < numTargetPoints
  · simp [h1, h]
    omega
  · simp [h1]
    by_cases h2 : numTargetPoints < raw.length
    · simp [h2]
      omega
    · simp [h2]
      omega

theorem resample_length_aux (d : GPXPoint α → GPXPoint α → α)
    (isNaN : α → Bool) (pts : List (GPXPoint α)) (h : 0 < pts.length) :
    (resample d isNaN pts).length = numTargetPoints := by
  unfold resample
  exact ensureCount_length pts _ h

/-! ## Concrete instantiations used by the witnesses -/

/-- A computable stand-in for the `Distance2D` oracle in concrete witnesses:
taxicab distance on `ℚ`.  Like the planar Euclidean metric it is nonnegative
and separates positions. -/
def qdist (p q : GPXPoint ℚ) : ℚ :=
  |q.latitude - p.latitude| + |q.longitude - p.longitude|

/-- Exact rationals have no NaN, so the `math.IsNaN` oracle is constantly
false in the concrete witnesses. -/
def noNaN (_ : ℚ) : Bool := false

theorem qdist_nonneg (p q : GPXPoint ℚ) : 0 ≤ qdist p q :=
  add_nonneg (abs_nonneg _) (abs_nonneg _)

theorem qdist_sep (p q : GPXPoint ℚ) (h : qdist p q = 0) :
    p.latitude = q.latitude ∧ p.longitude = q.longitude := by
  unfold qdist at h
  have h1 : |q.latitude - p.latitude| = 0 ∧ |q.longitude - p.longitude| = 0 := by
    constructor <;>
      nlinarith [abs_nonneg (q.latitude - p.latitude),
        abs_nonneg (q.longitude - p.longitude)]
  constructor
  · have := abs_eq_zero.mp h1.1
    linarith
  · have := abs_eq_zero.mp h1.2
    linarith

/-- Straight 10-unit line with elevations, from the spec's concrete
scenario. -/
def wPts : List (GPXPoint ℚ) :=
  [⟨0, 0, ⟨true, 0⟩, 0⟩, ⟨0, 10, ⟨true, 10⟩, 0⟩]

/-- Three coincident points (zero total length). -/
def wPtsZero : List (GPXPoint ℚ) :=
  [⟨5, 5, ⟨true, 7⟩, 1⟩, ⟨5, 5, ⟨true, 7⟩, 1⟩, ⟨5, 5, ⟨true, 7⟩, 1⟩]

/-- A concrete GPX container holding `wPts`. -/
def wGpx : GPX ℚ :=
  { creator := "someTool"
    version := "1.1"
    name := "track name"
    description := "descr"
    authorName := "author"
    copyrightAuthor := "ca"
    copyrightYear := "2020"
    copyrightLicense := "cl"
    link := "lnk"
    linkText := "lt"
    time := some 5
    keywords := "kw"
    bounds := none
    extensions := "ext"
    tracks := [⟨[⟨wPts⟩]⟩] }

/-- The same container with a 1-point path. -/
def wGpxOne : GPX ℚ :=
  { wGpx with tracks := [⟨[⟨[⟨0, 0, ⟨false, 0⟩, 0⟩]⟩]⟩] }

/-! ## C1: exact output count -/

/-- **C1**: for every input path with at least 2 points, the resampling core
of `normalizeGPX` produces an output point sequence of length exactly
`numTargetPoints = 1000`, for any distance oracle and NaN predicate: the
zero-total-length branch, the general interpolation loop and the
padding/truncation safeguard together guarantee it. -/
theorem resample_length_eq_target (d : GPXPoint α → GPXPoint α → α)
    (isNaN : α → Bool) (pts : List (GPXPoint α)) (h : 2 ≤ pts.length) :
    (resample d isNaN pts).length = numTargetPoints :=
  resample_length_aux d isNaN pts (by omega)

/-- Witness for C1 on the concrete two-point line. -/
theorem resample_length_eq_target_witness :
    (resample qdist noNaN wPts).length = numTargetPoints :=
  resample_length_eq_target qdist noNaN wPts (by decide)

/-! ## C4: the insufficient-points check -/

/-- **C4**: once a first segment of a first track exists, `normalizeGPX`
fails with the `insufficientPoints` error iff that segment has fewer than 2
points, and every segment with at least 2 points passes the check and
produces an `ok` result. -/
theorem normalizeGPX_insufficient_iff (d : GPXPoint α → GPXPoint α → α)
    (isNaN : α → Bool) (g : GPX α) (track : GPXTrack α)
    (seg : GPXTrackSegment α) (htrack : g.tracks.head? = some track)
    (hseg : track.segments.head? = some seg) :
    ((∃ n, normalizeGPX d isNaN g = .error (.insufficientPoints n)) ↔
        seg.points.length < 2) ∧
      (2 ≤ seg.points.length → ∃ g', normalizeGPX d isNaN g = .ok g') := by
  obtain ⟨ts, hts⟩ : ∃ ts, g.tracks = track :: ts := by
    cases h : g.tracks with
    | nil => rw [h] at htrack; simp at htrack
    | cons a as =>
      rw [h] at htrack
      simp at htrack
      exact ⟨as, by rw [htrack]⟩
  obtain ⟨ss, hss⟩ : ∃ ss, track.segments = seg :: ss := by
    cases h : track.segments with
    | nil => rw [h] at hseg; simp at hseg
    | cons a as =>
      rw [h] at hseg
      simp at hseg
      exact ⟨as, by rw [hseg]⟩
  by_cases hlen : seg.points.length < 2
  · constructor
    · simp [normalizeGPX, hts, hss, hlen]
    · intro h2
      omega
  · constructor
    · simp [normalizeGPX, hts, hss, hlen]
    · intro _
      simp only [normalizeGPX, hts, hss]
      rw [if_neg hlen]
      exact ⟨_, rfl⟩

/-- Witness for C4 at the concrete container (whose first segment has 2
points). -/
theorem normalizeGPX_insufficient_iff_witness :
    ((∃ n, normalizeGPX qdist noNaN wGpx = .error (.insufficientPoints n)) ↔
        wPts.length < 2) ∧
      (2 ≤ wPts.length → ∃ g', normalizeGPX qdist noNaN wGpx = .ok g') :=
  normalizeGPX_insufficient_iff qdist noNaN wGpx ⟨[⟨wPts⟩]⟩ ⟨wPts⟩ rfl rfl

/-! ## C10: header metadata frame -/

/-- **C10**: on every successfully processed input, the output container's
`Creator` is the fixed string `"gpx-normalizer"` regardless of the input's
creator, while `Version`, `Name`, `Description`, `AuthorName`, the copyright
fields, `Link`, `LinkText`, `Time`, `Keywords`, `Bounds` and `Extensions` are
copied unchanged from the input container. -/
theorem normalizeGPX_header (d : GPXPoint α → GPXPoint α → α)
    (isNaN : α → Bool) (g : GPX α) (track : GPXTrack α)
    (seg : GPXTrackSegment α) (htrack : g.tracks.head? = some track)
    (hseg : track.segments.head? = some seg)
    (h2 : 2 ≤ seg.points.length) :
    ∃ g', normalizeGPX d isNaN g = .ok g' ∧
      g'.creator = "gpx-normalizer" ∧ g'.version = g.version ∧
      g'.name = g.name ∧ g'.description = g.description ∧
      g'.authorName = g.authorName ∧
      g'.copyrightAuthor = g.copyrightAuthor ∧
      g'.copyrightYear = g.copyrightYear ∧
      g'.copyrightLicense = g.copyrightLicense ∧
      g'.link = g.link ∧ g'.linkText = g.linkText ∧ g'.time = g.time ∧
      g'.keywords = g.keywords ∧ g'.bounds = g.bounds ∧
      g'.extensions = g.extensions := by
  obtain ⟨ts, hts⟩ : ∃ ts, g.tracks = track :: ts := by
    cases h : g.tracks with
    | nil => rw [h] at htrack; simp at htrack
    | cons a as =>
      rw [h] at htrack
      simp at htrack
      exact ⟨as, by rw [htrack]⟩
  obtain ⟨ss, hss⟩ : ∃ ss, track.segments = seg :: ss := by
    cases h : track.segments with
    | nil => rw [h] at hseg; simp at hseg
    | cons a as =>
      rw [h] at hseg
      simp at hseg
      exact ⟨as, by rw [hseg]⟩
  have hlen : ¬ seg.points.length < 2 := by omega
  simp only [normalizeGPX, hts, hss]
  rw [if_neg hlen]
  refine ⟨_, rfl, ?_⟩
  simp

/-- Witness for C10 at the concrete container. -/
theorem normalizeGPX_header_witness :
    ∃ g', normalizeGPX qdist noNaN wGpx = .ok g' ∧
      g'.creator = "gpx-normalizer" ∧ g'.version = wGpx.version ∧
      g'.name = wGpx.name ∧ g'.description = wGpx.description ∧
      g'.authorName = wGpx.authorName ∧
      g'.copyrightAuthor = wGpx.copyrightAuthor ∧
      g'.copyrightYear = wGpx.copyrightYear ∧
      g'.copyrightLicense = wGpx.copyrightLicense ∧
      g'.link = wGpx.link ∧ g'.linkText = wGpx.linkText ∧
      g'.time = wGpx.time ∧ g'.keywords = wGpx.keywords ∧
      g'.bounds = wGpx.bounds ∧ g'.extensions = wGpx.extensions :=
  normalizeGPX_header qdist noNaN wGpx ⟨[⟨wPts⟩]⟩ ⟨wPts⟩ rfl rfl (by decide)

/-! ## The zero-total-length branch -/

theorem ensureCount_eq_self (pts raw : List (GPXPoint α))
    (h : raw.length = numTargetPoints) : ensureCount pts raw = raw := by
  unfold ensureCount
  rw [h]
  simp

theorem getD_replicate {β : Type} (n i : Nat) (a dflt : β) (h : i < n) :
    (List.replicate n a).getD i dflt = a := by
  induction n generalizing i with
  | zero => omega
  | succ n ih =>
    cases i with
    | zero => rfl
    | succ i => simpa [List.replicate] using ih i (by omega)

theorem resample_zero_branch (d : GPXPoint α → GPXPoint α → α)
    (isNaN : α → Bool) (pts : List (GPXPoint α)) (h1 : 0 < pts.length)
    (h0 : length2D d pts = 0) :
    resample d isNaN pts =
      List.replicate numTargetPoints (pts.getD 0 default) := by
  simp only [resample]
  rw [if_pos h0, if_pos h1]
  exact ensureCount_eq_self _ _ (List.length_replicate _ _)

theorem length2D_nonneg (d : GPXPoint α → GPXPoint α → α)
    (pts : List (GPXPoint α)) (hnn : ∀ p q, 0 ≤ d p q) :
    0 ≤ length2D d pts := by
  induction pts with
  | nil => simp [length2D]
  | cons p rest ih =>
    cases rest with
    | nil => simp [length2D]
    | cons q rest' =>
      simp only [length2D]
      exact add_nonneg (hnn p q) ih

/-- If the total 2D length vanishes (for a nonnegative, position-separating
distance), every point of the path has the position of the first point. -/
theorem zero_length_same_pos (d : GPXPoint α → GPXPoint α → α)
    (hnn : ∀ p q, 0 ≤ d p q)
    (hsep : ∀ p q, d p q = 0 →
      p.latitude = q.latitude ∧ p.longitude = q.longitude) :
    ∀ (pts : List (GPXPoint α)), length2D d pts = 0 → ∀ p ∈ pts,
      p.latitude = (pts.getD 0 default).latitude ∧
        p.longitude = (pts.getD 0 default).longitude := by
  intro pts
  induction pts with
  | nil => intro _ p hp; simp at hp
  | cons a rest ih =>
    intro h0 p hp
    cases rest with
    | nil =>
      simp at hp
      simp [hp]
    | cons q rest' =>
      simp only [length2D] at h0
      have hq : 0 ≤ length2D d (q :: rest') := length2D_nonneg d _ hnn
      have hd0 : d a q = 0 := le_antisymm (by linarith [hnn a q]) (hnn a q)
      have hrest0 : length2D d (q :: rest') = 0 := by linarith [hnn a q]
      have haq := hsep a q hd0
      rcases List.mem_cons.mp hp with rfl | hp
      · simp
      · have := ih hrest0 p hp
        simp only [List.getD_cons_zero] at this ⊢
        exact ⟨this.1.trans haq.1.symm, this.2.trans haq.2.symm⟩

theorem getD_mem {β : Type} (l : List β) (i : Nat) (dflt : β)
    (h : i < l.length) : l.getD i dflt ∈ l := by
  induction l generalizing i with
  | nil => simp at h
  | cons a rest ih =>
    cases i with
    | zero => simp
    | succ i =>
      simp only [List.getD_cons_succ]
      exact List.mem_cons_of_mem a (ih i (by simpa using h))

/-! ## C3: degenerate zero-length path -/

/-- **C3**: for every input path with at least 2 points whose total 2D length
is exactly 0, every one of the `numTargetPoints` output points is the first
input point itself — same latitude, same longitude, same elevation-validity
flag and same elevation value (the whole point record is copied, so no
interpolation is performed). -/
theorem resample_zero_length_all_first (d : GPXPoint α → GPXPoint α → α)
    (isNaN : α → Bool) (pts : List (GPXPoint α)) (h2 : 2 ≤ pts.length)
    (h0 : length2D d pts = 0) (i : Nat) (hi : i < numTargetPoints) :
    (resample d isNaN pts).getD i default = pts.getD 0 default := by
  rw [resample_zero_branch d isNaN pts (by omega) h0]
  exact getD_replicate _ _ _ _ hi

/-- Witness for C3 on three coincident points, checked at output index 37. -/
theorem resample_zero_length_all_first_witness :
    (resample qdist noNaN wPtsZero).getD 37 default = wPtsZero.getD 0 default :=
  resample_zero_length_all_first qdist noNaN wPtsZero (by decide)
    (by norm_num [length2D, qdist, wPtsZero]) 37 (by decide)

/-! ## Indexed access into the output loop -/

/-- Runs `j` successive output-loop iterations on the cursor state, starting
at iteration index `i`. -/
def stateIter (d : GPXPoint α → GPXPoint α → α) (pts : List (GPXPoint α))
    (interval : α) : Nat → Nat → α × Nat → α × Nat
  | 0, _, s => s
  | j + 1, i, s => stateIter d pts interval j (i + 1) (nextState d pts interval i s)

theorem stepResample_snd (d : GPXPoint α → GPXPoint α → α) (isNaN : α → Bool)
    (pts : List (GPXPoint α)) (interval : α) (i : Nat) (s : α × Nat) :
    (stepResample d isNaN pts interval i s).2 = nextState d pts interval i s := by
  unfold stepResample nextState
  split_ifs <;> rfl

theorem resampleFrom_getD (d : GPXPoint α → GPXPoint α → α) (isNaN : α → Bool)
    (pts : List (GPXPoint α)) (interval : α) :
    ∀ k j i s, j < k →
      (resampleFrom d isNaN pts interval k i s).getD j default =
        (stepResample d isNaN pts interval (i + j)
          (stateIter d pts interval j i s)).1 := by
  intro k
  induction k with
  | zero => intro j i s h; omega
  | succ k ih =>
    intro j i s h
    cases j with
    | zero => simp [resampleFrom, stateIter]
    | succ j =>
      simp only [resampleFrom, List.getD_cons_succ]
      rw [ih j (i + 1) _ (by omega), stepResample_snd]
      have harg : i + 1 + j = i + (j + 1) := by omega
      rw [harg]
      rfl

theorem stateIter_succ_right (d : GPXPoint α → GPXPoint α → α)
    (pts : List (GPXPoint α)) (interval : α) :
    ∀ j i s, stateIter d pts interval (j + 1) i s =
      nextState d pts interval (i + j) (stateIter d pts interval j i s) := by
  intro j
  induction j with
  | zero => intro i s; simp [stateIter]
  | succ j ih =>
    intro i s
    have : stateIter d pts interval (j + 1 + 1) i s =
        stateIter d pts interval (j + 1) (i + 1) (nextState d pts interval i s) := rfl
    rw [this, ih]
    have harg : i + 1 + j = i + (j + 1) := by omega
    rw [harg]
    rfl

theorem stateAt_eq_stateIter (d : GPXPoint α → GPXPoint α → α)
    (pts : List (GPXPoint α)) (interval : α) (j : Nat) :
    stateAt d pts interval j = stateIter d pts interval j 0 (0, 0) := by
  induction j with
  | zero => rfl
  | succ j ih =>
    rw [stateAt, stateIter_succ_right, ih]
    simp

/-- Element `j` of the resampled output, in the `totalDistance ≠ 0` branch:
it is the point generated by output-loop iteration `j` run on the cursor
state reached after the first `j` iterations. -/
theorem resample_getD_of_ne (d : GPXPoint α → GPXPoint α → α)
    (isNaN : α → Bool) (pts : List (GPXPoint α))
    (hne : length2D d pts ≠ 0) (j : Nat) (hj : j < numTargetPoints) :
    (resample d isNaN pts).getD j default =
      (stepResample d isNaN pts (intervalOf d pts) j
        (stateAt d pts (intervalOf d pts) j)).1 := by
  simp only [resample]
  rw [if_neg hne,
    ensureCount_eq_self _ _ (resampleFrom_length d isNaN pts _ _ _ _),
    resampleFrom_getD d isNaN pts _ _ _ _ _ hj, stateAt_eq_stateIter]
  simp

/-! ## C2: endpoint preservation -/

/-- **C2**: whenever resampling succeeds (path with at least 2 points), the
first output point's position equals the first input point's position
exactly, and the last output point's position equals the last input point's
position exactly — including in the `totalDistance == 0` branch, where the
output consists of copies of the first input point (the hypotheses `hnn` and
`hsep`, satisfied by the planar Euclidean metric, make all input positions
coincide there). -/
theorem resample_endpoints (d : GPXPoint α → GPXPoint α → α)
    (isNaN : α → Bool) (pts : List (GPXPoint α)) (h2 : 2 ≤ pts.length)
    (hnn : ∀ p q, 0 ≤ d p q)
    (hsep : ∀ p q, d p q = 0 →
      p.latitude = q.latitude ∧ p.longitude = q.longitude) :
    (((resample d isNaN pts).getD 0 default).latitude =
        (pts.getD 0 default).latitude ∧
      ((resample d isNaN pts).getD 0 default).longitude =
        (pts.getD 0 default).longitude) ∧
      (((resample d isNaN pts).getD (numTargetPoints - 1) default).latitude =
          (pts.getD (pts.length - 1) default).latitude ∧
        ((resample d isNaN pts).getD (numTargetPoints - 1) default).longitude =
          (pts.getD (pts.length - 1) default).longitude) := by
  by_cases h0 : length2D d pts = 0
  · rw [resample_zero_branch d isNaN pts (by omega) h0]
    rw [getD_replicate numTargetPoints 0 (pts.getD 0 default) default
        (by norm_num [numTargetPoints]),
      getD_replicate numTargetPoints (numTargetPoints - 1) (pts.getD 0 default)
        default (by norm_num [numTargetPoints])]
    refine ⟨⟨rfl, rfl⟩, ?_⟩
    have hmem : pts.getD (pts.length - 1) default ∈ pts :=
      getD_mem pts _ default (by omega)
    have hpos := zero_length_same_pos d hnn hsep pts h0 _ hmem
    exact ⟨hpos.1.symm, hpos.2.symm⟩
  · rw [resample_getD_of_ne d isNaN pts h0 0 (by norm_num [numTargetPoints]),
      resample_getD_of_ne d isNaN pts h0 (numTargetPoints - 1)
        (by norm_num [numTargetPoints])]
    constructor
    · simp [stepResample]
    · have h99 : numTargetPoints - 1 ≠ 0 := by norm_num [numTargetPoints]
      simp [stepResample, h99]

/-- Witness for C2 on the concrete two-point line. -/
theorem resample_endpoints_witness :
    (((resample qdist noNaN wPts).getD 0 default).latitude =
        (wPts.getD 0 default).latitude ∧
      ((resample qdist noNaN wPts).getD 0 default).longitude =
        (wPts.getD 0 default).longitude) ∧
      (((resample qdist noNaN wPts).getD (numTargetPoints - 1) default).latitude =
          (wPts.getD (wPts.length - 1) default).latitude ∧
        ((resample qdist noNaN wPts).getD (numTargetPoints - 1) default).longitude =
          (wPts.getD (wPts.length - 1) default).longitude) :=
  resample_endpoints qdist noNaN wPts (by decide) qdist_nonneg qdist_sep

/-! ## C6: the interpolation ratio -/

/-- **C6**: the interpolation ratio used for interior output points always
lies in the closed interval `[0, 1]`; the division by `dist(p1,p2)` happens
only under the strict-positivity guard, so whenever the guard fails — in
particular whenever `dist(p1,p2) = 0` — the ratio is `0`. -/
theorem ratioOf_unit_interval (d : GPXPoint α → GPXPoint α → α)
    (pts : List (GPXPoint α)) (target cum : α) (idx : Nat) :
    (0 ≤ ratioOf d pts target cum idx ∧ ratioOf d pts target cum idx ≤ 1) ∧
      (¬ 0 < segDist d pts idx → ratioOf d pts target cum idx = 0) ∧
      (segDist d pts idx = 0 → ratioOf d pts target cum idx = 0) := by
  refine ⟨⟨?_, ?_⟩, ?_, ?_⟩
  · simp only [ratioOf]
    split_ifs <;> linarith
  · simp only [ratioOf]
    split_ifs <;> linarith
  · intro h
    simp [ratioOf, h]
  · intro h
    simp [ratioOf, h]

/-- Witness for C6 at a concrete configuration. -/
theorem ratioOf_unit_interval_witness :
    (0 ≤ ratioOf qdist wPts 5 0 0 ∧ ratioOf qdist wPts 5 0 0 ≤ 1) ∧
      (¬ 0 < segDist qdist wPts 0 → ratioOf qdist wPts 5 0 0 = 0) ∧
      (segDist qdist wPts 0 = 0 → ratioOf qdist wPts 5 0 0 = 0) :=
  ratioOf_unit_interval qdist wPts 5 0 0

/-! ## Interior output points -/

/-- Every interior output point (`1 ≤ i ≤ numTargetPoints - 2`, nonzero total
length) is the interpolated point built from the cursor state after the
advance loop of iteration `i` (which is exactly `stateAt (i+1)`). -/
theorem resample_interior (d : GPXPoint α → GPXPoint α → α)
    (isNaN : α → Bool) (pts : List (GPXPoint α))
    (hne : length2D d pts ≠ 0) (i : Nat) (hi1 : 1 ≤ i)
    (hi2 : i ≤ numTargetPoints - 2) :
    (resample d isNaN pts).getD i default =
      interpPoint d isNaN pts ((i : α) * intervalOf d pts)
        (stateAt d pts (intervalOf d pts) (i + 1)).1
        (stateAt d pts (intervalOf d pts) (i + 1)).2 := by
  have hi2' : i ≤ 998 := by simpa [numTargetPoints] using hi2
  rw [resample_getD_of_ne d isNaN pts hne i (by simp [numTargetPoints]; omega)]
  have h0 : ¬ i = 0 := by omega
  have h9 : ¬ i = numTargetPoints - 1 := by simp [numTargetPoints]; omega
  rw [stateAt]
  simp only [stepResample, nextState, if_neg h0, if_neg h9]


/-! ## C7: elevation policy -/

/-- **C7**: for every interior output point, with `p1`, `p2` the bracketing
source points selected by the cursor and `r` the clamped ratio: if both have
valid elevation the output elevation is `p1 + r*(p2 - p1)` and is marked
valid; if exactly one has valid elevation the output carries that point's
value unmodified, marked valid; if neither does, the output elevation is
marked invalid. -/
theorem resample_interior_elevation (d : GPXPoint α → GPXPoint α → α)
    (isNaN : α → Bool) (pts : List (GPXPoint α))
    (hne : length2D d pts ≠ 0) (i : Nat) (hi1 : 1 ≤ i)
    (hi2 : i ≤ numTargetPoints - 2) (s : α × Nat)
    (hs : s = stateAt d pts (intervalOf d pts) (i + 1))
    (p1 p2 : GPXPoint α) (hp1 : p1 = pts.getD s.2 default)
    (hp2 : p2 = pts.getD (s.2 + 1) default) (r : α)
    (hr : r = ratioOf d pts ((i : α) * intervalOf d pts) s.1 s.2)
    (out : GPXPoint α) (hout : out = (resample d isNaN pts).getD i default) :
    (p1.elevation.valid = true → p2.elevation.valid = true →
      out.elevation =
        ⟨true, p1.elevation.value +
          r * (p2.elevation.value - p1.elevation.value)⟩) ∧
      (p1.elevation.valid = true → p2.elevation.valid = false →
        out.elevation = ⟨true, p1.elevation.value⟩) ∧
      (p1.elevation.valid = false → p2.elevation.valid = true →
        out.elevation = ⟨true, p2.elevation.value⟩) ∧
      (p1.elevation.valid = false → p2.elevation.valid = false →
        out.elevation.valid = false) := by
  subst hs hp1 hp2 hr hout
  rw [resample_interior d isNaN pts hne i hi1 hi2]
  simp only [interpPoint]
  refine ⟨?_, ?_, ?_, ?_⟩ <;> intro h1 h2 <;> rw [h1, h2] <;> simp

/-- Witness for C7 at `i = 1` on the concrete two-point line. -/
theorem resample_interior_elevation_witness :
    let s := stateAt qdist wPts (intervalOf qdist wPts) 2
    let p1 := wPts.getD s.2 default
    let p2 := wPts.getD (s.2 + 1) default
    let r := ratioOf qdist wPts ((1 : ℚ) * intervalOf qdist wPts) s.1 s.2
    let out := (resample qdist noNaN wPts).getD 1 default
    (p1.elevation.valid = true → p2.elevation.valid = true →
      out.elevation =
        ⟨true, p1.elevation.value +
          r * (p2.elevation.value - p1.elevation.value)⟩) ∧
      (p1.elevation.valid = true → p2.elevation.valid = false →
        out.elevation = ⟨true, p1.elevation.value⟩) ∧
      (p1.elevation.valid = false → p2.elevation.valid = true →
        out.elevation = ⟨true, p2.elevation.value⟩) ∧
      (p1.elevation.valid = false → p2.elevation.valid = false →
        out.elevation.valid = false) :=
  resample_interior_elevation qdist noNaN wPts
    (by norm_num [length2D, qdist, wPts]) 1 (by decide)
    (by decide) _ rfl _ _ rfl rfl _ rfl _ rfl

/-! ## C8: the NaN fallback -/

/-- **C8**: for every interior output point, if the interpolated latitude or
longitude is NaN then the output position is `p1`'s raw latitude and
longitude; consequently an interior output point's position can be NaN only
if `p1`'s own position is NaN. -/
theorem resample_interior_nan_fallback (d : GPXPoint α → GPXPoint α → α)
    (isNaN : α → Bool) (pts : List (GPXPoint α))
    (hne : length2D d pts ≠ 0) (i : Nat) (hi1 : 1 ≤ i)
    (hi2 : i ≤ numTargetPoints - 2) (s : α × Nat)
    (hs : s = stateAt d pts (intervalOf d pts) (i + 1))
    (p1 p2 : GPXPoint α) (hp1 : p1 = pts.getD s.2 default)
    (hp2 : p2 = pts.getD (s.2 + 1) default) (r : α)
    (hr : r = ratioOf d pts ((i : α) * intervalOf d pts) s.1 s.2)
    (out : GPXPoint α) (hout : out = (resample d isNaN pts).getD i default) :
    ((isNaN (p1.latitude + r * (p2.latitude - p1.latitude)) ||
        isNaN (p1.longitude + r * (p2.longitude - p1.longitude))) = true →
      out.latitude = p1.latitude ∧ out.longitude = p1.longitude) ∧
      ((isNaN out.latitude || isNaN out.longitude) = true →
        (isNaN p1.latitude || isNaN p1.longitude) = true) := by
  subst hs hp1 hp2 hr hout
  rw [resample_interior d isNaN pts hne i hi1 hi2]
  simp only [interpPoint]
  by_cases hb :
    (isNaN ((pts.getD (stateAt d pts (intervalOf d pts) (i + 1)).2
            default).latitude +
          ratioOf d pts ((i : α) * intervalOf d pts)
              (stateAt d pts (intervalOf d pts) (i + 1)).1
              (stateAt d pts (intervalOf d pts) (i + 1)).2 *
            ((pts.getD ((stateAt d pts (intervalOf d pts) (i + 1)).2 + 1)
                  default).latitude -
              (pts.getD (stateAt d pts (intervalOf d pts) (i + 1)).2
                  default).latitude)) ||
        isNaN ((pts.getD (stateAt d pts (intervalOf d pts) (i + 1)).2
            default).longitude +
          ratioOf d pts ((i : α) * intervalOf d pts)
              (stateAt d pts (intervalOf d pts) (i + 1)).1
              (stateAt d pts (intervalOf d pts) (i + 1)).2 *
            ((pts.getD ((stateAt d pts (intervalOf d pts) (i + 1)).2 + 1)
                  default).longitude -
              (pts.getD (stateAt d pts (intervalOf d pts) (i + 1)).2
                  default).longitude))) = true
  · simp only [if_pos hb]
    exact ⟨fun _ => ⟨by trivial, by trivial⟩, fun h => h⟩
  · simp only [if_neg hb]
    rw [Bool.not_eq_true, Bool.or_eq_false_iff] at hb
    constructor
    · intro hcontra
      rw [hb.1, hb.2] at hcontra
      simp at hcontra
    · intro hcontra
      rw [hb.1, hb.2] at hcontra
      simp at hcontra

/-- Witness for C8 at `i = 1` on the concrete two-point line (rationals have
no NaN, so the NaN premises are vacuous). -/
theorem resample_interior_nan_fallback_witness :
    let s := stateAt qdist wPts (intervalOf qdist wPts) 2
    let p1 := wPts.getD s.2 default
    let p2 := wPts.getD (s.2 + 1) default
    let r := ratioOf qdist wPts ((1 : ℚ) * intervalOf qdist wPts) s.1 s.2
    let out := (resample qdist noNaN wPts).getD 1 default
    ((noNaN (p1.latitude + r * (p2.latitude - p1.latitude)) ||
        noNaN (p1.longitude + r * (p2.longitude - p1.longitude))) = true →
      out.latitude = p1.latitude ∧ out.longitude = p1.longitude) ∧
      ((noNaN out.latitude || noNaN out.longitude) = true →
        (noNaN p1.latitude || noNaN p1.longitude) = true) :=
  resample_interior_nan_fallback qdist noNaN wPts
    (by norm_num [length2D, qdist, wPts]) 1 (by decide)
    (by decide) _ rfl _ _ rfl rfl _ rfl _ rfl

/-! ## Cursor invariants of the advance loop -/

theorem advance_idx_mono (d : GPXPoint α → GPXPoint α → α)
    (pts : List (GPXPoint α)) (target : α) :
    ∀ fuel s, s.2 ≤ (advance d pts target fuel s).2 := by
  intro fuel
  induction fuel with
  | zero => intro s; exact le_refl _
  | succ fuel ih =>
    intro ⟨cum, idx⟩
    rw [advance]
    split_ifs with h
    · exact le_trans (by omega) (ih (cum + segDist d pts idx, idx + 1))
    · exact le_refl _

theorem advance_idx_le (d : GPXPoint α → GPXPoint α → α)
    (pts : List (GPXPoint α)) (target : α) :
    ∀ fuel s, s.2 ≤ pts.length - 2 →
      (advance d pts target fuel s).2 ≤ pts.length - 2 := by
  intro fuel
  induction fuel with
  | zero => intro s h; exact h
  | succ fuel ih =>
    intro ⟨cum, idx⟩ h
    rw [advance]
    split_ifs with hg
    · exact ih (cum + segDist d pts idx, idx + 1) (by omega)
    · exact h

theorem advance_cum_le (d : GPXPoint α → GPXPoint α → α)
    (pts : List (GPXPoint α)) (target : α) :
    ∀ fuel s, s.1 ≤ target → (advance d pts target fuel s).1 ≤ target := by
  intro fuel
  induction fuel with
  | zero => intro s h; exact h
  | succ fuel ih =>
    intro ⟨cum, idx⟩ h
    rw [advance]
    split_ifs with hg
    · exact ih (cum + segDist d pts idx, idx + 1) (le_of_lt hg.2)
    · exact h

theorem advance_cum_eq (d : GPXPoint α → GPXPoint α → α)
    (pts : List (GPXPoint α)) (target : α) :
    ∀ fuel s, s.1 = cumDistTo d pts s.2 →
      (advance d pts target fuel s).1 =
        cumDistTo d pts (advance d pts target fuel s).2 := by
  intro fuel
  induction fuel with
  | zero => intro s h; exact h
  | succ fuel ih =>
    intro ⟨cum, idx⟩ h
    rw [advance]
    split_ifs with hg
    · exact ih (cum + segDist d pts idx, idx + 1) (by rw [cumDistTo, ← h])
    · exact h

/-- With enough fuel (`pts.length` always suffices), the advance loop stops
because its guard fails, not because the fuel runs out. -/
theorem advance_guard_false (d : GPXPoint α → GPXPoint α → α)
    (pts : List (GPXPoint α)) (target : α) :
    ∀ fuel s, pts.length - 2 - s.2 ≤ fuel →
      ¬ ((advance d pts target fuel s).2 < pts.length - 2 ∧
        (advance d pts target fuel s).1 +
            segDist d pts (advance d pts target fuel s).2 < target) := by
  intro fuel
  induction fuel with
  | zero =>
    intro s hf
    rw [advance]
    intro hcon
    omega
  | succ fuel ih =>
    intro ⟨cum, idx⟩ hf
    rw [advance]
    split_ifs with hg
    · exact ih (cum + segDist d pts idx, idx + 1) (by simp at hf ⊢; omega)
    · exact hg

/-! ## Cursor invariants across output-loop iterations -/

theorem stateAt_idx_le (d : GPXPoint α → GPXPoint α → α)
    (pts : List (GPXPoint α)) (interval : α) (i : Nat) :
    (stateAt d pts interval i).2 ≤ pts.length - 2 := by
  induction i with
  | zero => simp [stateAt]
  | succ i ih =>
    rw [stateAt]
    unfold nextState
    split_ifs
    · exact ih
    · exact ih
    · exact advance_idx_le d pts _ _ _ ih

theorem stateAt_idx_mono (d : GPXPoint α → GPXPoint α → α)
    (pts : List (GPXPoint α)) (interval : α) (i : Nat) :
    (stateAt d pts interval i).2 ≤ (stateAt d pts interval (i + 1)).2 := by
  rw [stateAt]
  unfold nextState
  split_ifs
  · exact le_refl _
  · exact le_refl _
  · exact advance_idx_mono d pts _ _ _

theorem stateAt_cum_eq (d : GPXPoint α → GPXPoint α → α)
    (pts : List (GPXPoint α)) (interval : α) (i : Nat) :
    (stateAt d pts interval i).1 =
      cumDistTo d pts (stateAt d pts interval i).2 := by
  induction i with
  | zero => simp [stateAt, cumDistTo]
  | succ i ih =>
    rw [stateAt]
    unfold nextState
    split_ifs
    · exact ih
    · exact ih
    · exact advance_cum_eq d pts _ _ _ ih

theorem stateAt_cum_le (d : GPXPoint α → GPXPoint α → α)
    (pts : List (GPXPoint α)) (interval : α) (hint : 0 ≤ interval) (i : Nat) :
    (stateAt d pts interval i).1 ≤ (i : α) * interval := by
  induction i with
  | zero => simp [stateAt]
  | succ i ih =>
    have hstep : (i : α) * interval ≤ ((i : Nat) + 1 : α) * interval := by
      have : ((i : Nat) : α) ≤ ((i : Nat) + 1 : α) := by
        norm_num
      nlinarith
    rw [stateAt]
    unfold nextState
    split_ifs
    · push_cast
      exact le_trans ih hstep
    · push_cast
      exact le_trans ih hstep
    · push_cast
      exact le_trans (advance_cum_le d pts _ _ _ ih) hstep

/-! ## C5: cursor monotonicity and bounds -/

/-- **C5**: across output-loop iterations the cursor `originalPointIndex` is
non-decreasing and never exceeds `len(sourcePoints) - 2`; hence for every
input with at least 2 points both `sourcePoints[originalPointIndex]` and
`sourcePoints[originalPointIndex + 1]` are in bounds. -/
theorem cursor_mono_and_bounded (d : GPXPoint α → GPXPoint α → α)
    (pts : List (GPXPoint α)) (h2 : 2 ≤ pts.length) (i : Nat) :
    (stateAt d pts (intervalOf d pts) i).2 ≤
        (stateAt d pts (intervalOf d pts) (i + 1)).2 ∧
      (stateAt d pts (intervalOf d pts) i).2 ≤ pts.length - 2 ∧
      (stateAt d pts (intervalOf d pts) i).2 < pts.length ∧
      (stateAt d pts (intervalOf d pts) i).2 + 1 < pts.length := by
  have hle := stateAt_idx_le d pts (intervalOf d pts) i
  exact ⟨stateAt_idx_mono d pts (intervalOf d pts) i, hle, by omega, by omega⟩

/-- Witness for C5 on the concrete two-point line at iteration 3. -/
theorem cursor_mono_and_bounded_witness :
    (stateAt qdist wPts (intervalOf qdist wPts) 3).2 ≤
        (stateAt qdist wPts (intervalOf qdist wPts) 4).2 ∧
      (stateAt qdist wPts (intervalOf qdist wPts) 3).2 ≤ wPts.length - 2 ∧
      (stateAt qdist wPts (intervalOf qdist wPts) 3).2 < wPts.length ∧
      (stateAt qdist wPts (intervalOf qdist wPts) 3).2 + 1 < wPts.length :=
  cursor_mono_and_bounded qdist wPts (by decide) 3

/-! ## Total length as a cumulative distance -/

theorem segDist_cons (d : GPXPoint α → GPXPoint α → α) (p : GPXPoint α)
    (rest : List (GPXPoint α)) (k : Nat) :
    segDist d (p :: rest) (k + 1) = segDist d rest k := by
  simp [segDist]

theorem cumDistTo_cons (d : GPXPoint α → GPXPoint α → α) (p : GPXPoint α)
    (rest : List (GPXPoint α)) :
    ∀ k, cumDistTo d (p :: rest) (k + 1) =
      segDist d (p :: rest) 0 + cumDistTo d rest k := by
  intro k
  induction k with
  | zero => simp [cumDistTo]
  | succ k ih =>
    rw [cumDistTo, ih, segDist_cons, cumDistTo]
    ring

theorem length2D_eq_cumDistTo (d : GPXPoint α → GPXPoint α → α) :
    ∀ pts : List (GPXPoint α),
      length2D d pts = cumDistTo d pts (pts.length - 1) := by
  intro pts
  induction pts with
  | nil => simp [length2D, cumDistTo]
  | cons p rest ih =>
    cases rest with
    | nil => simp [length2D, cumDistTo]
    | cons q rest' =>
      simp only [length2D, ih]
      have hlen : (p :: q :: rest').length - 1 = ((q :: rest').length - 1) + 1 := by
        simp
      rw [hlen, cumDistTo_cons]
      have h0 : segDist d (p :: q :: rest') 0 = d p q := by
        simp [segDist]
      rw [h0]

/-! ## Exact cumulative distance of interior points -/

theorem ratioOf_nonneg (d : GPXPoint α → GPXPoint α → α)
    (pts : List (GPXPoint α)) (target cum : α) (idx : Nat) :
    0 ≤ ratioOf d pts target cum idx := by
  simp only [ratioOf]
  split_ifs <;> linarith

theorem ratioOf_le_one (d : GPXPoint α → GPXPoint α → α)
    (pts : List (GPXPoint α)) (target cum : α) (idx : Nat) :
    ratioOf d pts target cum idx ≤ 1 := by
  simp only [ratioOf]
  split_ifs <;> linarith

/-- After the advance loop, the clamped ratio places the interpolated point
at exactly the target cumulative distance: starting from a state whose
cumulative distance is consistent and at most `target`, with
`target < totalLength`, the selected segment and ratio satisfy
`cumDistTo idx + ratio * segDist idx = target` (exact arithmetic: the clamps
never fire). -/
theorem advance_ratio_exact (d : GPXPoint α → GPXPoint α → α)
    (hnn : ∀ p q, 0 ≤ d p q) (pts : List (GPXPoint α))
    (h2 : 2 ≤ pts.length) (target : α) (s0 : α × Nat)
    (hcum0 : s0.1 ≤ target) (hcumeq0 : s0.1 = cumDistTo d pts s0.2)
    (hidx0 : s0.2 ≤ pts.length - 2) (htlt : target < length2D d pts) :
    cumDistTo d pts (advance d pts target pts.length s0).2 +
        ratioOf d pts target (advance d pts target pts.length s0).1
            (advance d pts target pts.length s0).2 *
          segDist d pts (advance d pts target pts.length s0).2 = target := by
  set s := advance d pts target pts.length s0 with hs
  have hcum : s.1 ≤ target := advance_cum_le d pts target _ s0 hcum0
  have hcumeq : s.1 = cumDistTo d pts s.2 := advance_cum_eq d pts target _ s0 hcumeq0
  have hidx : s.2 ≤ pts.length - 2 := advance_idx_le d pts target _ s0 hidx0
  have hguard := advance_guard_false d pts target pts.length s0 (by omega)
  rw [← hs] at hguard
  have hDnn : 0 ≤ segDist d pts s.2 := hnn _ _
  have htot : cumDistTo d pts (pts.length - 1) = length2D d pts :=
    (length2D_eq_cumDistTo d pts).symm
  have hub : target ≤ s.1 + segDist d pts s.2 := by
    rcases (by omega : s.2 < pts.length - 2 ∨ s.2 = pts.length - 2) with hlt | heq
    · by_contra hcon
      push_neg at hcon
      exact hguard ⟨hlt, hcon⟩
    · have hstep : cumDistTo d pts (pts.length - 2) +
          segDist d pts (pts.length - 2) = cumDistTo d pts (pts.length - 1) := by
        have hone : pts.length - 1 = (pts.length - 2) + 1 := by omega
        rw [hone, cumDistTo]
      rw [hcumeq, heq, hstep, htot]
      exact le_of_lt htlt
  by_cases hDpos : 0 < segDist d pts s.2
  · have hr : ratioOf d pts target s.1 s.2 =
        (target - s.1) / segDist d pts s.2 := by
      have hrnn : ¬ (target - s.1) / segDist d pts s.2 < 0 := by
        push_neg
        exact div_nonneg (by linarith) (le_of_lt hDpos)
      have hrle : ¬ 1 < (target - s.1) / segDist d pts s.2 := by
        push_neg
        rw [div_le_one hDpos]
        linarith
      simp [ratioOf, hDpos, hrnn, hrle]
    rw [hr, ← hcumeq]
    have hcancel := div_mul_cancel₀ (target - s.1) (ne_of_gt hDpos)
    linarith
  · have hD0 : segDist d pts s.2 = 0 := le_antisymm (not_lt.mp hDpos) hDnn
    have hr : ratioOf d pts target s.1 s.2 = 0 := by
      simp [ratioOf, hDpos]
    have hcumtarget : s.1 = target := by
      rw [hD0] at hub
      linarith
    rw [hr, hD0, ← hcumeq]
    simpa using hcumtarget

/-- Instantiation of `advance_ratio_exact` at the state actually threaded
through the output loop: interior iteration `i` lands at cumulative distance
exactly `i * intervalDistance`. -/
theorem stateAt_ratio_exact (d : GPXPoint α → GPXPoint α → α)
    (hnn : ∀ p q, 0 ≤ d p q) (pts : List (GPXPoint α)) (h2 : 2 ≤ pts.length)
    (hpos : 0 < length2D d pts) (i : Nat) (hi1 : 1 ≤ i)
    (hi2 : i ≤ numTargetPoints - 2) :
    cumDistTo d pts (stateAt d pts (intervalOf d pts) (i + 1)).2 +
        ratioOf d pts ((i : α) * intervalOf d pts)
            (stateAt d pts (intervalOf d pts) (i + 1)).1
            (stateAt d pts (intervalOf d pts) (i + 1)).2 *
          segDist d pts (stateAt d pts (intervalOf d pts) (i + 1)).2 =
      (i : α) * intervalOf d pts := by
  have h0 : ¬ i = 0 := by omega
  have hi998 : i ≤ 998 := by simpa [numTargetPoints] using hi2
  have h9 : ¬ i = numTargetPoints - 1 := by simp [numTargetPoints]; omega
  have hIvpos : 0 < intervalOf d pts := by
    unfold intervalOf
    apply div_pos hpos
    norm_num [numTargetPoints]
  have hcast : ((numTargetPoints - 1 : Nat) : α) = (999 : α) := by
    norm_num [numTargetPoints]
  have hL999 : length2D d pts = 999 * intervalOf d pts := by
    unfold intervalOf
    rw [hcast]
    field_simp
  have htlt : (i : α) * intervalOf d pts < length2D d pts := by
    have hic : (i : α) ≤ 998 := by exact_mod_cast hi998
    rw [hL999]
    nlinarith
  have hs : stateAt d pts (intervalOf d pts) (i + 1) =
      advance d pts ((i : α) * intervalOf d pts) pts.length
        (stateAt d pts (intervalOf d pts) i) := by
    rw [stateAt]
    unfold nextState
    rw [if_neg h0, if_neg h9]
  rw [hs]
  exact advance_ratio_exact d hnn pts h2 _ _
    (stateAt_cum_le d pts _ (le_of_lt hIvpos) i)
    (stateAt_cum_eq d pts _ i) (stateAt_idx_le d pts _ i) htlt

/-! ## C9: equidistance along the polyline -/

theorem euclid_nonneg : ∀ p q : GPXPoint ℝ, 0 ≤ euclidDist p q :=
  fun _ _ => Real.sqrt_nonneg _

/-- A convex combination of two points at parameter `r ≥ 0` sits at planar
Euclidean distance `r * euclidDist p1 p2` from `p1`. -/
theorem euclid_lerp (p1 p2 : GPXPoint ℝ) (r : ℝ) (hr : 0 ≤ r)
    (q : GPXPoint ℝ)
    (hlat : q.latitude = p1.latitude + r * (p2.latitude - p1.latitude))
    (hlon : q.longitude = p1.longitude + r * (p2.longitude - p1.longitude)) :
    euclidDist p1 q = r * euclidDist p1 p2 := by
  unfold euclidDist
  rw [hlat, hlon]
  have hsq : (p1.latitude - (p1.latitude + r * (p2.latitude - p1.latitude))) ^ 2 +
      (p1.longitude - (p1.longitude + r * (p2.longitude - p1.longitude))) ^ 2 =
      r ^ 2 * ((p1.latitude - p2.latitude) ^ 2 +
        (p1.longitude - p2.longitude) ^ 2) := by
    ring
  rw [hsq, Real.sqrt_mul (sq_nonneg r), Real.sqrt_sq hr]

/-- With no value flagged as NaN, the interior point's position is the pure
linear interpolation. -/
theorem interpPoint_pos_of_noNaN (d : GPXPoint α → GPXPoint α → α)
    (pts : List (GPXPoint α)) (target cum : α) (idx : Nat) :
    (interpPoint d (fun _ => false) pts target cum idx).latitude =
        (pts.getD idx default).latitude +
          ratioOf d pts target cum idx *
            ((pts.getD (idx + 1) default).latitude -
              (pts.getD idx default).latitude) ∧
      (interpPoint d (fun _ => false) pts target cum idx).longitude =
        (pts.getD idx default).longitude +
          ratioOf d pts target cum idx *
            ((pts.getD (idx + 1) default).longitude -
              (pts.getD idx default).longitude) := by
  constructor <;> simp [interpPoint]

/-- **C9**: in the general case (`totalLength > 0`, planar Euclidean
distance), every interior output point `i` lies on the input polyline — on
the segment between consecutive source points `k` and `k+1` selected by the
cursor, at parameter `t ∈ [0,1]` — and its cumulative planar path distance
from the start, `cumDistTo k + t * dist(p_k, p_{k+1})`, equals exactly
`i * (totalLength / (targetCount - 1))`; consecutive interior points are
therefore separated by equal planar path distance. -/
theorem resample_equidistance (pts : List (GPXPoint ℝ)) (h2 : 2 ≤ pts.length)
    (hpos : 0 < length2D euclidDist pts) (i : Nat) (hi1 : 1 ≤ i)
    (hi2 : i ≤ numTargetPoints - 2) :
    ∃ k t, k ≤ pts.length - 2 ∧ 0 ≤ t ∧ t ≤ 1 ∧
      ((resample euclidDist (fun _ => false) pts).getD i default).latitude =
        (pts.getD k default).latitude +
          t * ((pts.getD (k + 1) default).latitude -
            (pts.getD k default).latitude) ∧
      ((resample euclidDist (fun _ => false) pts).getD i default).longitude =
        (pts.getD k default).longitude +
          t * ((pts.getD (k + 1) default).longitude -
            (pts.getD k default).longitude) ∧
      euclidDist (pts.getD k default)
          ((resample euclidDist (fun _ => false) pts).getD i default) =
        t * euclidDist (pts.getD k default) (pts.getD (k + 1) default) ∧
      cumDistTo euclidDist pts k +
          t * euclidDist (pts.getD k default) (pts.getD (k + 1) default) =
        (i : ℝ) * intervalOf euclidDist pts := by
  have hne : length2D euclidDist pts ≠ 0 := ne_of_gt hpos
  have hcum := stateAt_ratio_exact euclidDist euclid_nonneg pts h2 hpos i hi1 hi2
  have hout := resample_interior euclidDist (fun _ => false) pts hne i hi1 hi2
  have hpt := interpPoint_pos_of_noNaN euclidDist pts
    ((i : ℝ) * intervalOf euclidDist pts)
    (stateAt euclidDist pts (intervalOf euclidDist pts) (i + 1)).1
    (stateAt euclidDist pts (intervalOf euclidDist pts) (i + 1)).2
  have hlat := hout ▸ hpt.1
  have hlon := hout ▸ hpt.2
  refine ⟨(stateAt euclidDist pts (intervalOf euclidDist pts) (i + 1)).2,
    ratioOf euclidDist pts ((i : ℝ) * intervalOf euclidDist pts)
      (stateAt euclidDist pts (intervalOf euclidDist pts) (i + 1)).1
      (stateAt euclidDist pts (intervalOf euclidDist pts) (i + 1)).2,
    stateAt_idx_le _ _ _ _, ratioOf_nonneg _ _ _ _ _,
    ratioOf_le_one _ _ _ _ _, hlat, hlon, ?_, ?_⟩
  · exact euclid_lerp _ _ _ (ratioOf_nonneg _ _ _ _ _) _ hlat hlon
  · exact hcum

/-- Straight 3-4-5 segment over `ℝ` for the equidistance witness. -/
def wPtsR : List (GPXPoint ℝ) :=
  [⟨0, 0, ⟨false, 0⟩, 0⟩, ⟨3, 4, ⟨false, 0⟩, 0⟩]

theorem length2D_wPtsR : length2D euclidDist wPtsR = Real.sqrt 25 := by
  simp [wPtsR, length2D, euclidDist]
  norm_num

/-- Witness for C9 at `i = 1` on the concrete 3-4-5 segment. -/
theorem resample_equidistance_witness :
    ∃ k t, k ≤ wPtsR.length - 2 ∧ 0 ≤ t ∧ t ≤ 1 ∧
      ((resample euclidDist (fun _ => false) wPtsR).getD 1 default).latitude =
        (wPtsR.getD k default).latitude +
          t * ((wPtsR.getD (k + 1) default).latitude -
            (wPtsR.getD k default).latitude) ∧
      ((resample euclidDist (fun _ => false) wPtsR).getD 1 default).longitude =
        (wPtsR.getD k default).longitude +
          t * ((wPtsR.getD (k + 1) default).longitude -
            (wPtsR.getD k default).longitude) ∧
      euclidDist (wPtsR.getD k default)
          ((resample euclidDist (fun _ => false) wPtsR).getD 1 default) =
        t * euclidDist (wPtsR.getD k default) (wPtsR.getD (k + 1) default) ∧
      cumDistTo euclidDist wPtsR k +
          t * euclidDist (wPtsR.getD k default) (wPtsR.getD (k + 1) default) =
        ((1 : Nat) : ℝ) * intervalOf euclidDist wPtsR :=
  resample_equidistance wPtsR (by decide)
    (by rw [length2D_wPtsR]; exact Real.sqrt_pos.mpr (by norm_num)) 1
    (by decide) (by decide)
